import Mathlib

/-!
Shallow embedding of the core computational logic of
`Visualization_of_Uber_cab_pickup_data_using_Streamlit.py`:
the hour filter (`filterdata`), the minute histogram (`histdata`),
the midpoint calculator (`mpoint`), and the midpoint/filter/histogram
pipeline of `main` (lines 109-128).

Modelling decisions:
* A `Record` keeps the three fields the script selects from each row
  (`date/time`, `lat`, `lon`); of the parsed timestamp only the `hour`
  and `minute` components are ever read (via `.dt.hour` / `.dt.minute`),
  so those two naturals stand for the timestamp.  Pandas guarantees
  `hour < 24` and `minute < 60` for every well-parsed datetime; that
  invariant is the predicate `WfBatch`.
* A pandas DataFrame with the default RangeIndex is a `List Record`;
  boolean-mask row selection between equal-length frames is positional
  (`maskFilter`).
* Coordinates are rationals; `np.average` of an empty column yields the
  floating-point NaN (it does not raise), modelled as `none`.
* The selected hour arrives from a UI slider as an integer; it is kept
  as `ℤ` so that out-of-range hours can be discussed.
-/

namespace Uber

/-- One row of the loaded CSV after ingestion: the script reads the columns
`date/time` (of which only the hour and minute components are used),
`lat` and `lon`. -/
structure Record where
  hour : ℕ
  minute : ℕ
  lat : ℚ
  lon : ℚ
  deriving DecidableEq, Repr

/-- Pandas invariant on parsed datetimes: `.dt.hour ∈ [0,23]` and
`.dt.minute ∈ [0,59]` for every record of the batch. -/
def WfBatch (B : List Record) : Prop :=
  ∀ r ∈ B, r.hour < 24 ∧ r.minute < 60

instance (B : List Record) : Decidable (WfBatch B) := by
  unfold WfBatch; infer_instance

/-- `filterdata(df, hour_selected)` (line 66):
`df[df["date/time"].dt.hour == hour_selected]` — keep exactly the rows
whose hour component equals the selected hour, in order. -/
def filterdata (df : List Record) (hour_selected : ℤ) : List Record :=
  df.filter (fun r => decide ((r.hour : ℤ) = hour_selected))

/-- `np.average` of one coordinate column: the arithmetic mean, or NaN
(modelled `none`) when the column is empty — NumPy returns NaN with a
runtime warning on an empty input, it does not raise. -/
def npAverage (l : List ℚ) : Option ℚ :=
  if l.isEmpty then none else some (l.sum / l.length)

/-- `mpoint(lat, lon)` (line 71): `(np.average(lat), np.average(lon))`. -/
def mpoint (lat lon : List ℚ) : Option ℚ × Option ℚ :=
  (npAverage lat, npAverage lon)

/-- Positional boolean-mask row selection, as pandas performs on two
equal-length frames sharing the default RangeIndex. -/
def maskFilter (mask : List Bool) (rows : List Record) : List Record :=
  ((mask.zip rows).filter (fun p => p.1)).map (fun p => p.2)

/-- The boolean mask of line 76:
`(df["date/time"].dt.hour >= hr) & (df["date/time"].dt.hour < (hr + 1))`. -/
def hourMask (df : List Record) (hr : ℤ) : List Bool :=
  df.map (fun r => decide (hr ≤ (r.hour : ℤ) ∧ (r.hour : ℤ) < hr + 1))

/-- The row selection of line 76.  Note the source indexes the
module-level `data` with a mask computed from the argument `df`:
`filtered = data[(df["date/time"].dt.hour >= hr) & ...]`. -/
def histFiltered (dataGlobal df : List Record) (hr : ℤ) : List Record :=
  maskFilter (hourMask df hr) dataGlobal

/-- One bin of `np.histogram(values, bins=60, range=(0, 60))`: bins are
half-open `[i, i+1)` except the last, which is the closed `[59, 60]`;
values outside `[0, 60]` are not counted. -/
def bucketCount (l : List ℕ) (i : ℕ) : ℕ :=
  if i < 59 then l.count i
  else l.countP (fun v => decide (59 ≤ v) && decide (v ≤ 60))

/-- `np.histogram(filtered["date/time"].dt.minute, bins=60, range=(0, 60))[0]`
(line 77): the 60 bin counts. -/
def npHistogram60 (l : List ℕ) : List ℕ :=
  (List.range 60).map (bucketCount l)

/-- The DataFrame built on line 78: `{"minute": range(60), "pickups": hist}`. -/
structure HistFrame where
  minute : List ℕ
  pickups : List ℕ
  deriving DecidableEq, Repr

/-- `histdata(df, hr)` (lines 74-78).  `dataGlobal` is the module-level
`data` frame that line 76 reads; in `main` the function is invoked as
`histdata(data, hour_selected)`, so there `dataGlobal = df`. -/
def histdata (dataGlobal df : List Record) (hr : ℤ) : HistFrame :=
  let filtered := histFiltered dataGlobal df hr
  { minute := List.range 60
    pickups := npHistogram60 (filtered.map (fun r => r.minute)) }

/-- The per-interaction recomputation of `main` (lines 109-128): the
map-centering midpoint (line 109), the hour-filtered batch fed to the
four maps (lines 113-125, all four use the same `filterdata` result),
and the chart data (line 128). -/
structure MainView where
  midpoint : Option ℚ × Option ℚ
  mapBatch : List Record
  chart : HistFrame
  deriving DecidableEq, Repr

/-- `main`'s pipeline as a function of the loaded batch and the slider
value: line 109 computes `mpoint(data["lat"], data["lon"])` on the full
batch, lines 113-125 render `filterdata(data, hour_selected)`, and line
128 computes `histdata(data, hour_selected)` (where the global `data`
equals the argument). -/
def mainView (data : List Record) (hour_selected : ℤ) : MainView :=
  { midpoint := mpoint (data.map (fun r => r.lat)) (data.map (fun r => r.lon))
    mapBatch := filterdata data hour_selected
    chart := histdata data data hour_selected }

/-- The error the specification's taxonomy assigns to an aggregate over an
empty batch. -/
inductive MidpointError where
  | emptyInput
  deriving DecidableEq, Repr

/-- Modelled from the spec (section 4.3 / 7), for comparison with the
source's `mpoint`: the midpoint calculator "fails with an EmptyInputError
when `batch` is empty" and otherwise returns the two means. -/
def mpointSpec (lat lon : List ℚ) : Except MidpointError (ℚ × ℚ) :=
  if lat.isEmpty then Except.error MidpointError.emptyInput
  else Except.ok (lat.sum / lat.length, lon.sum / lon.length)

/-! ## Helper lemmas -/

lemma maskFilter_map (p : Record → Bool) (l : List Record) :
    maskFilter (l.map p) l = l.filter p := by
  induction l with
  | nil => rfl
  | cons r l ih =>
    simp only [maskFilter, List.map_cons, List.zip_cons_cons, List.filter_cons] at ih ⊢
    cases hp : p r <;> simp [hp, ih]

/-- When `histdata` receives the module-level `data` itself as `df` (the only
way `main` ever calls it), its range-mask row selection coincides with
`filterdata`'s equality filter: over the integers, `hr ≤ x < hr + 1 ↔ x = hr`. -/
lemma histFiltered_self (B : List Record) (h : ℤ) :
    histFiltered B B h = filterdata B h := by
  have hm : hourMask B h = B.map (fun r => decide ((r.hour : ℤ) = h)) := by
    unfold hourMask
    apply List.map_congr_left
    intro r _
    exact Bool.decide_congr (by omega)
  rw [histFiltered, hm, maskFilter_map, filterdata]

lemma sum_map_range (n : ℕ) (f : ℕ → ℕ) :
    ((List.range n).map f).sum = ∑ i in Finset.range n, f i := by
  induction n with
  | zero => simp
  | succ k ih =>
    rw [List.range_succ, Finset.sum_range_succ, List.map_append, List.sum_append, ih]
    simp

lemma sum_range_count (l : List ℕ) (n : ℕ) (hl : ∀ v ∈ l, v < n) :
    ((List.range n).map (fun i => l.count i)).sum = l.length := by
  rw [sum_map_range]
  induction l with
  | nil => simp
  | cons a l ih =>
    have ha : a < n := hl a (List.mem_cons_self a l)
    have hl' : ∀ v ∈ l, v < n := fun v hv => hl v (List.mem_cons_of_mem a hv)
    simp only [List.count_cons, List.length_cons]
    rw [Finset.sum_add_distrib, ih hl']
    simp only [beq_iff_eq, Finset.sum_ite_eq, Finset.mem_range]
    simp [ha]

/-- On minute values below 60 (every parsed datetime's minute), the closed
last bin of `np.histogram` collapses to an exact count, and each bin `i`
counts the values equal to `i`. -/
lemma npHistogram60_eq_counts (l : List ℕ) (h : ∀ v ∈ l, v < 60) :
    npHistogram60 l = (List.range 60).map (fun i => l.count i) := by
  unfold npHistogram60
  apply List.map_congr_left
  intro i hi
  unfold bucketCount
  by_cases h59 : i < 59
  · simp [h59]
  · have hi60 : i < 60 := List.mem_range.mp hi
    have : i = 59 := by omega
    subst this
    rw [if_neg h59, List.count_eq_countP]
    apply List.countP_congr
    intro v hv
    have := h v hv
    simp only [Bool.and_eq_true, decide_eq_true_eq, beq_iff_eq]
    omega

lemma getD_map_range (n : ℕ) (f : ℕ → ℕ) (i : ℕ) (hi : i < n) :
    ((List.range n).map f).getD i 0 = f i := by
  rw [List.getD_eq_getElem?_getD, List.getElem?_map, List.getElem?_range hi]
  rfl

/-- `np.average` of a non-empty column is the arithmetic mean, and the mean
lies between any lower and upper bound of the column. -/
lemma npAverage_mean_bounds (l : List ℚ) (hne : l ≠ []) :
    ∃ a, npAverage l = some a ∧ a = l.sum / l.length ∧
      ∀ lo hi : ℚ, (∀ x ∈ l, lo ≤ x ∧ x ≤ hi) → lo ≤ a ∧ a ≤ hi := by
  have hlen : 0 < l.length := List.length_pos.mpr hne
  have hlenQ : (0 : ℚ) < (l.length : ℚ) := by exact_mod_cast hlen
  refine ⟨l.sum / l.length, ?_, rfl, ?_⟩
  · unfold npAverage
    rw [if_neg (by simpa [List.isEmpty_iff] using hne)]
  · intro lo hi hb
    have hlo : (l.length : ℚ) * lo ≤ l.sum := by
      have := List.card_nsmul_le_sum l lo (fun x hx => (hb x hx).1)
      simpa [nsmul_eq_mul] using this
    have hhi : l.sum ≤ (l.length : ℚ) * hi := by
      have := List.sum_le_card_nsmul l hi (fun x hx => (hb x hx).2)
      simpa [nsmul_eq_mul] using this
    constructor
    · rw [le_div_iff₀ hlenQ]
      linarith
    · rw [div_le_iff₀ hlenQ]
      linarith

/-! ## Claim theorems -/

/-- C1: for every record batch `B` and hour `h ∈ [0,23]`, `filterdata B h`
contains exactly the records of `B` whose hour component equals `h`, keeps
their original relative order (it is a sublist of `B`), and together with
the records whose hour differs from `h` it partitions `B` exactly — their
concatenation is a permutation of `B`, so no record is lost or duplicated. -/
theorem filterdata_hour_partition (B : List Record) (h : ℤ)
    (hh : 0 ≤ h ∧ h ≤ 23) :
    (∀ r ∈ filterdata B h, (r.hour : ℤ) = h) ∧
    (filterdata B h).Sublist B ∧
    List.Perm (filterdata B h ++ B.filter (fun r => !decide ((r.hour : ℤ) = h))) B := by
  refine ⟨?_, ?_, ?_⟩
  · intro r hr
    unfold filterdata at hr
    exact of_decide_eq_true (List.mem_filter.mp hr).2
  · exact List.filter_sublist B
  · exact List.filter_append_perm _ B

theorem filterdata_hour_partition_witness :
    ((0 : ℤ) ≤ 5 ∧ (5 : ℤ) ≤ 23) ∧
    ((∀ r ∈ filterdata [⟨5,10,0,0⟩, ⟨6,45,2,2⟩] 5, (r.hour : ℤ) = 5) ∧
      (filterdata [⟨5,10,0,0⟩, ⟨6,45,2,2⟩] 5).Sublist [⟨5,10,0,0⟩, ⟨6,45,2,2⟩] ∧
      List.Perm (filterdata [⟨5,10,0,0⟩, ⟨6,45,2,2⟩] 5 ++
        ([⟨5,10,0,0⟩, ⟨6,45,2,2⟩] : List Record).filter
          (fun r => !decide ((r.hour : ℤ) = 5))) [⟨5,10,0,0⟩, ⟨6,45,2,2⟩]) :=
  ⟨by decide, filterdata_hour_partition [⟨5,10,0,0⟩, ⟨6,45,2,2⟩] 5 (by decide)⟩

/-- C2: for every well-formed batch `B` and hour `h ∈ [0,23]`, the 60 bucket
counts of `histdata` (invoked as `main` does, with the module-level `data`
equal to the argument batch) sum to the number of records `filterdata B h`
returns. -/
theorem histdata_sum_pickups (B : List Record) (h : ℤ)
    (hwf : WfBatch B) (hh : 0 ≤ h ∧ h ≤ 23) :
    (histdata B B h).pickups.sum = (filterdata B h).length := by
  have hminutes : ∀ v ∈ (filterdata B h).map (fun r => r.minute), v < 60 := by
    intro v hv
    rcases List.mem_map.mp hv with ⟨r, hr, rfl⟩
    exact (hwf r (List.mem_of_mem_filter hr)).2
  show (npHistogram60 ((histFiltered B B h).map (fun r => r.minute))).sum = _
  rw [histFiltered_self, npHistogram60_eq_counts _ hminutes,
    sum_range_count _ 60 hminutes, List.length_map]

theorem histdata_sum_pickups_witness :
    (WfBatch [⟨5,10,0,0⟩, ⟨6,45,2,2⟩] ∧ ((0 : ℤ) ≤ 5 ∧ (5 : ℤ) ≤ 23)) ∧
    (histdata [⟨5,10,0,0⟩, ⟨6,45,2,2⟩] [⟨5,10,0,0⟩, ⟨6,45,2,2⟩] 5).pickups.sum
      = (filterdata [⟨5,10,0,0⟩, ⟨6,45,2,2⟩] 5).length :=
  ⟨⟨by decide, by decide⟩,
    histdata_sum_pickups [⟨5,10,0,0⟩, ⟨6,45,2,2⟩] 5 (by decide) (by decide)⟩

/-- C6: for every batch `B` and integer hour `h ∈ [0,23]`, the rows selected
by `histdata`'s internal range mask `hr ≤ hour < hr + 1` (at `main`'s call,
where the module-level `data` is the argument batch) are exactly the list
`filterdata B h` returns with the equality predicate, and the two predicates
agree on every record: the two filtering passes are behaviorally equivalent. -/
theorem histdata_filterdata_equiv (B : List Record) (h : ℤ)
    (hh : 0 ≤ h ∧ h ≤ 23) :
    histFiltered B B h = filterdata B h ∧
    ∀ r : Record, (h ≤ (r.hour : ℤ) ∧ (r.hour : ℤ) < h + 1) ↔ (r.hour : ℤ) = h :=
  ⟨histFiltered_self B h, fun _ => by omega⟩

/-- C3: for every well-formed batch `B` (the empty batch included) and hour
`h ∈ [0,23]`, the histogram `histdata` builds (at `main`'s call, module-level
`data` = argument) has exactly 60 buckets indexed by minute 0-59, every
bucket count is ≥ 0, a bucket whose minute no hour-matching record carries
is 0, and when no record matches the hour the buckets are all zero. -/
theorem histdata_bucket_shape (B : List Record) (h : ℤ)
    (hwf : WfBatch B) (hh : 0 ≤ h ∧ h ≤ 23) :
    (histdata B B h).minute = List.range 60 ∧
    (histdata B B h).pickups.length = 60 ∧
    (∀ c ∈ (histdata B B h).pickups, 0 ≤ c) ∧
    (∀ i : ℕ, i < 60 → (∀ r ∈ filterdata B h, r.minute ≠ i) →
      (histdata B B h).pickups.getD i 0 = 0) ∧
    (filterdata B h = [] → (histdata B B h).pickups = List.replicate 60 0) := by
  have hpick : (histdata B B h).pickups
      = npHistogram60 ((filterdata B h).map (fun r => r.minute)) := by
    show npHistogram60 ((histFiltered B B h).map (fun r => r.minute)) = _
    rw [histFiltered_self]
  refine ⟨rfl, ?_, fun c _ => Nat.zero_le c, ?_, ?_⟩
  · rw [hpick]
    simp [npHistogram60]
  · intro i hi hnone
    rw [hpick]
    unfold npHistogram60
    rw [getD_map_range 60 _ i hi]
    unfold bucketCount
    by_cases h59 : i < 59
    · rw [if_pos h59, List.count_eq_zero]
      intro hmem
      rcases List.mem_map.mp hmem with ⟨r, hr, hmin⟩
      exact hnone r hr hmin
    · rw [if_neg h59, List.countP_eq_zero]
      intro v hv
      rcases List.mem_map.mp hv with ⟨r, hr, rfl⟩
      have h60 : r.minute < 60 := (hwf r (List.mem_of_mem_filter hr)).2
      have hne : r.minute ≠ i := hnone r hr
      have : i = 59 := by omega
      simp only [Bool.and_eq_true, decide_eq_true_eq]
      omega
  · intro hE
    rw [hpick, hE]
    decide

theorem histdata_bucket_shape_witness :
    (WfBatch [⟨5,10,0,0⟩, ⟨6,45,2,2⟩] ∧ ((0 : ℤ) ≤ 7 ∧ (7 : ℤ) ≤ 23)) ∧
    ((histdata [⟨5,10,0,0⟩, ⟨6,45,2,2⟩] [⟨5,10,0,0⟩, ⟨6,45,2,2⟩] 7).minute
        = List.range 60 ∧
      (histdata [⟨5,10,0,0⟩, ⟨6,45,2,2⟩] [⟨5,10,0,0⟩, ⟨6,45,2,2⟩] 7).pickups.length = 60 ∧
      (∀ c ∈ (histdata [⟨5,10,0,0⟩, ⟨6,45,2,2⟩] [⟨5,10,0,0⟩, ⟨6,45,2,2⟩] 7).pickups,
        0 ≤ c) ∧
      (∀ i : ℕ, i < 60 →
        (∀ r ∈ filterdata [⟨5,10,0,0⟩, ⟨6,45,2,2⟩] 7, r.minute ≠ i) →
        (histdata [⟨5,10,0,0⟩, ⟨6,45,2,2⟩] [⟨5,10,0,0⟩, ⟨6,45,2,2⟩] 7).pickups.getD i 0
          = 0) ∧
      (filterdata [⟨5,10,0,0⟩, ⟨6,45,2,2⟩] 7 = [] →
        (histdata [⟨5,10,0,0⟩, ⟨6,45,2,2⟩] [⟨5,10,0,0⟩, ⟨6,45,2,2⟩] 7).pickups
          = List.replicate 60 0)) :=
  ⟨⟨by decide, by decide⟩,
    histdata_bucket_shape [⟨5,10,0,0⟩, ⟨6,45,2,2⟩] 7 (by decide) (by decide)⟩

theorem histdata_filterdata_equiv_witness :
    ((0 : ℤ) ≤ 5 ∧ (5 : ℤ) ≤ 23) ∧
    (histFiltered [⟨5,10,0,0⟩, ⟨6,45,2,2⟩] [⟨5,10,0,0⟩, ⟨6,45,2,2⟩] 5
        = filterdata [⟨5,10,0,0⟩, ⟨6,45,2,2⟩] 5 ∧
      ∀ r : Record, (5 ≤ (r.hour : ℤ) ∧ (r.hour : ℤ) < 5 + 1) ↔ (r.hour : ℤ) = 5) :=
  ⟨by decide, histdata_filterdata_equiv [⟨5,10,0,0⟩, ⟨6,45,2,2⟩] 5 (by decide)⟩

/-- C5: for every non-empty batch, `mpoint` returns the independent
arithmetic mean of the latitudes and of the longitudes, and each mean lies
within any interval `[lo, hi]` bounding the respective input coordinates —
in particular within `[min, max]` of those coordinates. -/
theorem mpoint_mean_within_bounds (B : List Record) (hne : B ≠ []) :
    ∃ a b, mpoint (B.map (fun r => r.lat)) (B.map (fun r => r.lon)) = (some a, some b) ∧
      a = (B.map (fun r => r.lat)).sum / (B.map (fun r => r.lat)).length ∧
      b = (B.map (fun r => r.lon)).sum / (B.map (fun r => r.lon)).length ∧
      (∀ lo hi : ℚ, (∀ x ∈ B.map (fun r => r.lat), lo ≤ x ∧ x ≤ hi) → lo ≤ a ∧ a ≤ hi) ∧
      (∀ lo hi : ℚ, (∀ x ∈ B.map (fun r => r.lon), lo ≤ x ∧ x ≤ hi) → lo ≤ b ∧ b ≤ hi) := by
  have hlat : B.map (fun r => r.lat) ≠ [] := by
    simpa [List.map_eq_nil_iff] using hne
  have hlon : B.map (fun r => r.lon) ≠ [] := by
    simpa [List.map_eq_nil_iff] using hne
  rcases npAverage_mean_bounds _ hlat with ⟨a, ha, haeq, habd⟩
  rcases npAverage_mean_bounds _ hlon with ⟨b, hb, hbeq, hbbd⟩
  exact ⟨a, b, by rw [mpoint, ha, hb], haeq, hbeq, habd, hbbd⟩

theorem mpoint_mean_within_bounds_witness :
    (([⟨5,10,1,2⟩] : List Record) ≠ []) ∧
    (∃ a b, mpoint (([⟨5,10,1,2⟩] : List Record).map (fun r => r.lat))
        (([⟨5,10,1,2⟩] : List Record).map (fun r => r.lon)) = (some a, some b) ∧
      a = (([⟨5,10,1,2⟩] : List Record).map (fun r => r.lat)).sum /
        (([⟨5,10,1,2⟩] : List Record).map (fun r => r.lat)).length ∧
      b = (([⟨5,10,1,2⟩] : List Record).map (fun r => r.lon)).sum /
        (([⟨5,10,1,2⟩] : List Record).map (fun r => r.lon)).length ∧
      (∀ lo hi : ℚ, (∀ x ∈ ([⟨5,10,1,2⟩] : List Record).map (fun r => r.lat),
        lo ≤ x ∧ x ≤ hi) → lo ≤ a ∧ a ≤ hi) ∧
      (∀ lo hi : ℚ, (∀ x ∈ ([⟨5,10,1,2⟩] : List Record).map (fun r => r.lon),
        lo ≤ x ∧ x ≤ hi) → lo ≤ b ∧ b ≤ hi)) :=
  ⟨by decide, mpoint_mean_within_bounds [⟨5,10,1,2⟩] (by decide)⟩

/-- C8: a record timestamped 23:59 appears in `filterdata B 23`, the
histogram for hour 23 still has its 60 buckets with bucket 59 incremented
(count at least one), and the record does not wrap into hour 0's filter. -/
theorem boundary_hour23_minute59 (B : List Record) (r : Record)
    (hmem : r ∈ B) (h23 : r.hour = 23) (m59 : r.minute = 59) :
    r ∈ filterdata B 23 ∧
    (histdata B B 23).pickups.length = 60 ∧
    1 ≤ (histdata B B 23).pickups.getD 59 0 ∧
    r ∉ filterdata B 0 := by
  have hmemf : r ∈ filterdata B 23 := by
    unfold filterdata
    exact List.mem_filter.mpr ⟨hmem, by simp [h23]⟩
  have hpick : (histdata B B 23).pickups
      = npHistogram60 ((filterdata B 23).map (fun r => r.minute)) := by
    show npHistogram60 ((histFiltered B B 23).map (fun r => r.minute)) = _
    rw [histFiltered_self]
  refine ⟨hmemf, ?_, ?_, ?_⟩
  · rw [hpick]
    simp [npHistogram60]
  · rw [hpick]
    unfold npHistogram60
    rw [getD_map_range 60 _ 59 (by omega)]
    unfold bucketCount
    rw [if_neg (by omega)]
    have hmm : r.minute ∈ (filterdata B 23).map (fun r => r.minute) :=
      List.mem_map.mpr ⟨r, hmemf, rfl⟩
    have : 0 < ((filterdata B 23).map (fun r => r.minute)).countP
        (fun v => decide (59 ≤ v) && decide (v ≤ 60)) := by
      apply List.countP_pos_iff.mpr
      exact ⟨r.minute, hmm, by simp [m59]⟩
    omega
  · intro hc
    unfold filterdata at hc
    have := of_decide_eq_true (List.mem_filter.mp hc).2
    omega

theorem boundary_hour23_minute59_witness :
    ((⟨23,59,0,0⟩ : Record) ∈ ([⟨23,59,0,0⟩, ⟨5,10,1,1⟩] : List Record) ∧
      (⟨23,59,0,0⟩ : Record).hour = 23 ∧ (⟨23,59,0,0⟩ : Record).minute = 59) ∧
    ((⟨23,59,0,0⟩ : Record) ∈ filterdata [⟨23,59,0,0⟩, ⟨5,10,1,1⟩] 23 ∧
      (histdata [⟨23,59,0,0⟩, ⟨5,10,1,1⟩] [⟨23,59,0,0⟩, ⟨5,10,1,1⟩] 23).pickups.length
        = 60 ∧
      1 ≤ (histdata [⟨23,59,0,0⟩, ⟨5,10,1,1⟩]
        [⟨23,59,0,0⟩, ⟨5,10,1,1⟩] 23).pickups.getD 59 0 ∧
      (⟨23,59,0,0⟩ : Record) ∉ filterdata [⟨23,59,0,0⟩, ⟨5,10,1,1⟩] 0) :=
  ⟨⟨by decide, rfl, rfl⟩,
    boundary_hour23_minute59 [⟨23,59,0,0⟩, ⟨5,10,1,1⟩] ⟨23,59,0,0⟩ (by decide) rfl rfl⟩

/-- C10: for every well-formed batch and any integer hour outside `[0,23]`
(negative or above 23), `filterdata` neither rejects nor clamps: it simply
returns the empty batch, since no parsed hour component can equal such a
value. -/
theorem filterdata_out_of_range (B : List Record) (h : ℤ)
    (hwf : WfBatch B) (hout : h < 0 ∨ 23 < h) :
    filterdata B h = [] := by
  unfold filterdata
  rw [List.filter_eq_nil_iff]
  intro r hr
  have := (hwf r hr).1
  simp only [decide_eq_true_eq]
  omega

theorem filterdata_out_of_range_witness :
    (WfBatch [⟨5,10,0,0⟩] ∧ ((24 : ℤ) < 0 ∨ (23 : ℤ) < 24)) ∧
    filterdata [⟨5,10,0,0⟩] 24 = [] :=
  ⟨⟨by decide, by decide⟩,
    filterdata_out_of_range [⟨5,10,0,0⟩] 24 (by decide) (by decide)⟩

/-- C4 counterexample: on the empty batch the source's `mpoint` does not
raise — `np.average` of an empty column yields the NaN pair `(none, none)` —
while the spec-modelled calculator signals `EmptyInputError` there. -/
theorem mpoint_empty_returns_nan :
    mpoint [] [] = (none, none) ∧
    mpointSpec [] [] = Except.error MidpointError.emptyInput :=
  ⟨rfl, rfl⟩

/-- C4 (amended): `mpoint` never raises; each returned component is the NaN
marker `none` exactly when the batch is empty, and on every non-empty batch
both components are defined coordinate means. -/
theorem mpoint_nan_iff_empty (B : List Record) :
    ((mpoint (B.map (fun r => r.lat)) (B.map (fun r => r.lon))).1 = none ↔ B = []) ∧
    ((mpoint (B.map (fun r => r.lat)) (B.map (fun r => r.lon))).2 = none ↔ B = []) := by
  unfold mpoint npAverage
  cases B <;> simp

/-- C7: `histdata` is not a function of its arguments alone — line 76 indexes
the module-level `data` with the boolean mask built from the argument `df`
(`filtered = data[(df["date/time"].dt.hour >= hr) & ...]`), so two calls with
an identical `(df, hr)` pair yield different histograms once the module-level
batch differs: here `df` holds one 05:10 record in both calls, while the
module-level batch holds a 05:10 record in the first and a 05:20 record in
the second, moving the count from bucket 10 to bucket 20. -/
theorem histdata_reads_module_data :
    histdata [⟨5,10,0,0⟩] [⟨5,10,0,0⟩] 5 ≠ histdata [⟨5,20,0,0⟩] [⟨5,10,0,0⟩] 5 := by
  decide

/-- C9 counterexample: at the batch [(05:10, lat 0, lon 0), (06:00, lat 2,
lon 2)] and selected hour 5, `main` (line 109) centers the maps at the mean
of ALL records, `(some 1, some 1)`, not at the mean of the hour filter's
output, which would be `(some 0, some 0)`. -/
theorem main_midpoint_counterexample :
    (mainView [⟨5,10,0,0⟩, ⟨6,0,2,2⟩] 5).midpoint
      ≠ mpoint ((filterdata [⟨5,10,0,0⟩, ⟨6,0,2,2⟩] 5).map (fun r => r.lat))
          ((filterdata [⟨5,10,0,0⟩, ⟨6,0,2,2⟩] 5).map (fun r => r.lon)) := by
  have hfull : (mainView [⟨5,10,0,0⟩, ⟨6,0,2,2⟩] 5).midpoint = (some 1, some 1) := by
    norm_num [mainView, mpoint, npAverage]
  have hfiltered : mpoint ((filterdata [⟨5,10,0,0⟩, ⟨6,0,2,2⟩] 5).map (fun r => r.lat))
      ((filterdata [⟨5,10,0,0⟩, ⟨6,0,2,2⟩] 5).map (fun r => r.lon))
      = (some 0, some 0) := by
    norm_num [mpoint, npAverage, filterdata, List.filter]
  rw [hfull, hfiltered]
  simp

/-- C9 (amended): in `main`'s recomputation pipeline the Midpoint Calculator
is applied to the full loaded batch (line 109 passes `data["lat"]`,
`data["lon"]`), not to the Hour Filter's output: the map-centering midpoint
equals `mpoint` over all records' coordinates and is independent of the
selected hour. -/
theorem main_midpoint_full_batch (B : List Record) (h h' : ℤ)
    (hh : 0 ≤ h ∧ h ≤ 23) (hh' : 0 ≤ h' ∧ h' ≤ 23) :
    (mainView B h).midpoint
      = mpoint (B.map (fun r => r.lat)) (B.map (fun r => r.lon)) ∧
    (mainView B h).midpoint = (mainView B h').midpoint :=
  ⟨rfl, rfl⟩

theorem main_midpoint_full_batch_witness :
    (((0 : ℤ) ≤ 5 ∧ (5 : ℤ) ≤ 23) ∧ ((0 : ℤ) ≤ 9 ∧ (9 : ℤ) ≤ 23)) ∧
    ((mainView [⟨5,10,0,0⟩, ⟨6,0,2,2⟩] 5).midpoint
        = mpoint (([⟨5,10,0,0⟩, ⟨6,0,2,2⟩] : List Record).map (fun r => r.lat))
            (([⟨5,10,0,0⟩, ⟨6,0,2,2⟩] : List Record).map (fun r => r.lon)) ∧
      (mainView [⟨5,10,0,0⟩, ⟨6,0,2,2⟩] 5).midpoint
        = (mainView [⟨5,10,0,0⟩, ⟨6,0,2,2⟩] 9).midpoint) :=
  ⟨⟨by decide, by decide⟩,
    main_midpoint_full_batch [⟨5,10,0,0⟩, ⟨6,0,2,2⟩] 5 9 (by decide) (by decide)⟩

end Uber
